import Mathlib

/-- A card; the source stores a single `u8` rank, validated to lie in `[0, 13]`
at construction. -/
structure Card where
  rank : Nat
deriving Repr, DecidableEq

/-- A player: a name plus an ordered, index-addressable hand of cards. -/
structure Player where
  name : String
  cards : List Card
deriving Repr, DecidableEq

/-- Pre-game state: deck, discard pile, players paired with their remaining
peek allowance, and the redundant total of those allowances. -/
structure PreGame where
  deck : List Card
  discard_pile : List Card
  players : List (Player × Nat)
  total_peeks_left : Nat
deriving Repr, DecidableEq

/-- The turn-engine state: deck, discard pile, players, current-player cursor,
optional Kabo caller, and the optional card currently held after a draw. -/
structure Game where
  deck : List Card
  discard_pile : List Card
  players : List Player
  current_player : Nat
  kabo : Option Nat
  hand_card : Option Card
deriving Repr, DecidableEq

/-- The fixed deck size, `DECK_SIZE` in the source. -/
def DECK_SIZE : Nat := 52

/-- Errors reported by the pre-game `peek` operation. -/
inductive PreGameError where
  | NoPeeksLeft
  | InvalidIndex
deriving Repr, DecidableEq

/-- Events emitted by successful game actions. -/
inductive GameEvent where
  | DiscardShuffle
  | Discards (cards : List Card)
  | Kabo (player_index : Nat)
  | EndTurn (next_player : Nat)
  | Seen (player_index : Nat) (card_index : Nat) (card : Card)
  | GameOver
deriving Repr, DecidableEq

/-- Recoverable errors reported by game actions. -/
inductive GameError where
  | WrongPhase
  | AlreadyKabo (player_index : Nat)
  | WrongCard
  | InvalidIndex
deriving Repr, DecidableEq

/-- Outcome of a game action: `none` models a panic; otherwise the
result value is paired with the post-call state. -/
abbrev GStatus := Option (Except GameError (List GameEvent) × Game)

/-- `Vec::pop`: removes and returns the last element, `none` on an empty
vector. -/
def popCard (l : List Card) : Option (Card × List Card) :=
  match l.getLast? with
  | some c => some (c, l.dropLast)
  | none => none

/-- The unshuffled 52-card deck built by `Card::full_deck`: two 0s, four
each of ranks 1–12, two 13s. -/
def baseDeck : List Card :=
  [⟨0⟩, ⟨0⟩] ++ ((List.range 12).flatMap fun i => List.replicate 4 ⟨i + 1⟩) ++ [⟨13⟩, ⟨13⟩]

/-- `Card::full_deck`: the base deck passed through the shuffle. -/
def Card.full_deck (sh : List Card → List Card) : List Card :=
  sh baseDeck

/-- One iteration of the dealing loop in `PreGame::new`: drain the last
`cpp` cards of the deck into each named player's hand, giving each player
a peek allowance of 2.  `none` models the underflow panic when the deck
is too short. -/
def dealLoop (cpp : Nat) : List String → List Card → List (Player × Nat) →
    Option (List Card × List (Player × Nat))
  | [], deck, acc => some (deck, acc)
  | name :: rest, deck, acc =>
    if cpp ≤ deck.length then
      let cards := deck.drop (deck.length - cpp)
      let deck' := deck.take (deck.length - cpp)
      dealLoop cpp rest deck' (acc ++ [(⟨name, cards⟩, 2)])
    else none

/-- `PreGame::new`: build and shuffle a full deck, flip one card onto the
discard pile, deal `cpp` cards to each player, set `total_peeks_left` to
twice the player count.  `none` models the construction-time assertion
failures. -/
def PreGame.new (sh : List Card → List Card) (names : List String) (cpp : Nat) :
    Option PreGame :=
  let deck0 := Card.full_deck sh
  if deck0.length = DECK_SIZE then
    match popCard deck0 with
    | none => none
    | some (first_card, deck1) =>
      match dealLoop cpp names deck1 [] with
      | none => none
      | some (deck2, players) =>
        some { deck := deck2, discard_pile := [first_card],
               players := players, total_peeks_left := players.length * 2 }
  else none

/-- `PreGame::peek`: an invalid player index panics (`none`); with peeks
remaining the per-player and total counters are decremented *before* the
card index is validated, so an `InvalidIndex` error still consumes a
peek. -/
def PreGame.peek (pg : PreGame) (player_index card_index : Nat) :
    Option (Except PreGameError Card × PreGame) :=
  match pg.players[player_index]? with
  | none => none
  | some (player, peeks_left) =>
    if 0 < peeks_left then
      let pg' : PreGame :=
        { pg with players := pg.players.set player_index (player, peeks_left - 1),
                  total_peeks_left := pg.total_peeks_left - 1 }
      match player.cards[card_index]? with
      | some card => some (.ok card, pg')
      | none => some (.error .InvalidIndex, pg')
    else some (.error .NoPeeksLeft, pg)

/-- `PreGame::total_card_amout` (sic): cards in deck, discard pile and all
hands. -/
def PreGame.total_card_amout (pg : PreGame) : Nat :=
  pg.deck.length + pg.discard_pile.length +
    (pg.players.map fun x => x.1.cards.length).sum

/-- `PreGame::to_game`: asserts the 52-card total and that no peeks remain
(globally and per player), then hands the containers to a fresh `Game`
with cursor 0, no Kabo and no held card.  `none` models the assertion
failures. -/
def PreGame.to_game (pg : PreGame) : Option Game :=
  if pg.total_card_amout = DECK_SIZE ∧ pg.total_peeks_left = 0 ∧
      ∀ pl ∈ pg.players, pl.2 = 0 then
    some { deck := pg.deck, discard_pile := pg.discard_pile,
           players := pg.players.map (·.1),
           current_player := 0, kabo := none, hand_card := none }
  else none

/-- The cursor advance in `Game::end_turn`: increment, wrapping to 0 when
the incremented cursor equals the player count. -/
def advance (cp n : Nat) : Nat :=
  if cp + 1 = n then 0 else cp + 1

/-- `Game::end_turn` (internal): asserts no card is held (`none` on
violation), advances the cursor with wrap-around, and reports `GameOver`
exactly when the new cursor equals the Kabo caller, `EndTurn` otherwise. -/
def Game.end_turn (g : Game) : Option (GameEvent × Game) :=
  match g.hand_card with
  | some _ => none
  | none =>
    let cp := advance g.current_player g.players.length
    let g' := { g with current_player := cp }
    match g.kabo with
    | some k => if k = cp then some (.GameOver, g') else some (.EndTurn cp, g')
    | none => some (.EndTurn cp, g')

/-- `Game::discard_and_end` (internal): pushes the held card onto the
discard pile, clears the hand slot, and ends the turn; panics (`none`)
without a held card. -/
def Game.discard_and_end (g : Game) : Option (List GameEvent × Game) :=
  match g.hand_card with
  | none => none
  | some card =>
    let g1 : Game := { g with discard_pile := g.discard_pile ++ [card],
                              hand_card := none }
    match g1.end_turn with
    | none => none
    | some (e, g2) => some ([.Discards [card], e], g2)

/-- `Game::deck_draw`: `WrongPhase` while holding a card; otherwise pop the
deck into the hand slot, or — on an empty deck with at least 4 discards
(asserted) — swap deck and discard pile, shuffle the new deck, draw from
it and emit `DiscardShuffle`. -/
def Game.deck_draw (sh : List Card → List Card) (g : Game) : GStatus :=
  match g.hand_card with
  | some _ => some (.error .WrongPhase, g)
  | none =>
    match popCard g.deck with
    | some (card, deck') =>
      some (.ok [], { g with deck := deck', hand_card := some card })
    | none =>
      if 4 ≤ g.discard_pile.length then
        let newDeck := sh g.discard_pile
        some (.ok [.DiscardShuffle],
          { g with deck := newDeck.dropLast, discard_pile := [],
                   hand_card := newDeck.getLast? })
      else none

/-- `Game::discard_draw`: `WrongPhase` while holding a card; otherwise pop
the discard pile's top into the hand slot, panicking (`none`) on an empty
pile. -/
def Game.discard_draw (g : Game) : GStatus :=
  match g.hand_card with
  | some _ => some (.error .WrongPhase, g)
  | none =>
    match popCard g.discard_pile with
    | none => none
    | some (card, pile') =>
      some (.ok [], { g with discard_pile := pile', hand_card := some card })

/-- `Game::announce_kabo`: `WrongPhase` while holding a card,
`AlreadyKabo` if a Kabo was declared; otherwise record the current player
as caller and emit the `Kabo` event followed by the end-turn event. -/
def Game.announce_kabo (g : Game) : GStatus :=
  match g.hand_card with
  | some _ => some (.error .WrongPhase, g)
  | none =>
    match g.kabo with
    | some player_index => some (.error (.AlreadyKabo player_index), g)
    | none =>
      let g1 : Game := { g with kabo := some g.current_player }
      match g1.end_turn with
      | none => none
      | some (e, g2) => some (.ok [.Kabo g.current_player, e], g2)

/-- `Game::discard`: `WrongPhase` without a held card; otherwise discard
the held card and end the turn. -/
def Game.discard (g : Game) : GStatus :=
  match g.hand_card with
  | none => some (.error .WrongPhase, g)
  | some _ =>
    match g.discard_and_end with
    | none => none
    | some (evs, g') => some (.ok evs, g')

/-- `Game::replace`: `WrongPhase` without a held card; indexes the target
player directly (panic, `none`, when out of range — the caller-validated
boundary); `InvalidIndex` when the card index misses the hand; otherwise
swaps the held card with the face-down card and discards the latter. -/
def Game.replace (g : Game) (player_index card_index : Nat) : GStatus :=
  match g.hand_card with
  | none => some (.error .WrongPhase, g)
  | some hc =>
    match g.players[player_index]? with
    | none => none
    | some player =>
      match player.cards[card_index]? with
      | none => some (.error .InvalidIndex, g)
      | some fd =>
        let player' : Player := { player with cards := player.cards.set card_index hc }
        let g1 : Game := { g with players := g.players.set player_index player',
                                  hand_card := some fd }
        match g1.discard_and_end with
        | none => none
        | some (evs, g') => some (.ok evs, g')

/-- `Game::multi_replace`: rejects fewer than two indices with
`InvalidIndex` *before* the phase guard; the successful branch is
`unimplemented!` (`none`). -/
def Game.multi_replace (g : Game) (player_index : Nat) (card_indices : List Nat) :
    GStatus :=
  if card_indices.length < 2 then some (.error .InvalidIndex, g)
  else
    match g.hand_card with
    | none => some (.error .WrongPhase, g)
    | some _ => none

/-- `Game::peek` (in-turn): `WrongPhase` without a held card, `WrongCard`
unless the held card's rank is 7 or 8; the successful branch is
`unimplemented!` (`none`). -/
def Game.peek (g : Game) (player_index card_index : Nat) : GStatus :=
  match g.hand_card with
  | none => some (.error .WrongPhase, g)
  | some card =>
    if card.rank = 7 ∨ card.rank = 8 then none
    else some (.error .WrongCard, g)

def witnessG9 : Game :=
  { deck := [], discard_pile := [], players := [], current_player := 0,
    kabo := none, hand_card := some ⟨3⟩ }

def cexG3 : Game :=
  { deck := [], discard_pile := [], players := [], current_player := 0,
    kabo := none, hand_card := none }

def witnessG3none : Game :=
  { deck := [⟨1⟩], discard_pile := [⟨2⟩], players := [⟨"A", [⟨3⟩]⟩],
    current_player := 0, kabo := none, hand_card := none }

def witnessG3some : Game :=
  { witnessG3none with hand_card := some ⟨4⟩ }

/-- The pre-game used as C2's failing input: one player, four-card hand,
two peeks left, 52 cards in total. -/
def cexPG2 : PreGame :=
  { deck := List.replicate 47 ⟨1⟩, discard_pile := [⟨2⟩],
    players := [(⟨"A", [⟨3⟩, ⟨4⟩, ⟨5⟩, ⟨6⟩]⟩, 2)], total_peeks_left := 2 }

/-- The state `cexPG2.peek 0 4` leaves behind: both peek counters were
decremented even though the peek failed. -/
def cexPG2' : PreGame :=
  { cexPG2 with players := [(⟨"A", [⟨3⟩, ⟨4⟩, ⟨5⟩, ⟨6⟩]⟩, 1)], total_peeks_left := 1 }

def cexG7 : Game :=
  { deck := [], discard_pile := [], players := [⟨"A", [⟨1⟩]⟩],
    current_player := 0, kabo := none, hand_card := some ⟨5⟩ }

def witnessG7 : Game :=
  { deck := [], discard_pile := [], players := [⟨"A", [⟨1⟩]⟩],
    current_player := 0, kabo := none, hand_card := some ⟨6⟩ }

def witnessG6 : Game :=
  { deck := [⟨9⟩], discard_pile := [⟨2⟩], players := [⟨"A", [⟨7⟩, ⟨1⟩]⟩],
    current_player := 0, kabo := none, hand_card := some ⟨4⟩ }

def witnessG4 : Game :=
  { deck := [], discard_pile := [⟨1⟩, ⟨2⟩, ⟨3⟩, ⟨4⟩], players := [],
    current_player := 0, kabo := none, hand_card := none }

def witnessG10 : Game :=
  { deck := [], discard_pile := [⟨5⟩, ⟨6⟩, ⟨7⟩, ⟨8⟩, ⟨9⟩], players := [],
    current_player := 0, kabo := none, hand_card := none }

/-- Cards in deck, discard pile and all hands — the count named by the
spec's invariant, which does not include the held card. -/
def Game.containerCount (g : Game) : Nat :=
  g.deck.length + g.discard_pile.length + (g.players.map fun p => p.cards.length).sum

/-- `containerCount` plus one for the held card when present. -/
def Game.totalCount (g : Game) : Nat :=
  g.containerCount + (match g.hand_card with | some _ => 1 | none => 0)

/-- A shuffle permutes its input. -/
def IsShuffle (sh : List Card → List Card) : Prop :=
  ∀ l : List Card, (sh l).Perm l

/-- One successful public action, for any permutation-producing shuffle:
the step relation of the turn engine. -/
inductive Game.Step : Game → Game → Prop
  | deck_draw (sh : List Card → List Card) (hsh : IsShuffle sh) {g g' : Game}
      (evs : List GameEvent) (h : g.deck_draw sh = some (.ok evs, g')) : Step g g'
  | discard_draw {g g' : Game} (evs : List GameEvent)
      (h : g.discard_draw = some (.ok evs, g')) : Step g g'
  | announce_kabo {g g' : Game} (evs : List GameEvent)
      (h : g.announce_kabo = some (.ok evs, g')) : Step g g'
  | discard {g g' : Game} (evs : List GameEvent)
      (h : g.discard = some (.ok evs, g')) : Step g g'
  | replace (p i : Nat) {g g' : Game} (evs : List GameEvent)
      (h : g.replace p i = some (.ok evs, g')) : Step g g'

/-- Reflexive-transitive closure of `Game.Step`. -/
inductive Game.Reachable : Game → Game → Prop
  | refl (g : Game) : Reachable g g
  | tail {g g' g'' : Game} : Reachable g g' → Step g' g'' → Reachable g g''

/-- A game as handed over by `PreGame::to_game`. -/
def InitialGame (g : Game) : Prop :=
  ∃ pg : PreGame, pg.to_game = some g

/-- The pre-game behind C1's counterexample: 52 cards, no peeks left. -/
def cexPG1 : PreGame :=
  { deck := List.replicate 47 ⟨1⟩, discard_pile := [⟨2⟩],
    players := [(⟨"A", [⟨3⟩, ⟨4⟩, ⟨5⟩, ⟨6⟩]⟩, 0)], total_peeks_left := 0 }

/-- The initial game `cexPG1.to_game` produces. -/
def cexG0 : Game :=
  { deck := List.replicate 47 ⟨1⟩, discard_pile := [⟨2⟩],
    players := [⟨"A", [⟨3⟩, ⟨4⟩, ⟨5⟩, ⟨6⟩]⟩], current_player := 0,
    kabo := none, hand_card := none }

/-- The state after one successful `deck_draw` from `cexG0`. -/
def cexG1 : Game :=
  { cexG0 with deck := List.replicate 46 ⟨1⟩, hand_card := some ⟨1⟩ }

def witnessPG1 : PreGame :=
  { deck := List.replicate 46 ⟨9⟩, discard_pile := [⟨2⟩, ⟨3⟩],
    players := [(⟨"B", [⟨3⟩, ⟨4⟩, ⟨5⟩, ⟨6⟩]⟩, 0)], total_peeks_left := 0 }

def witnessG1 : Game :=
  { deck := List.replicate 46 ⟨9⟩, discard_pile := [⟨2⟩, ⟨3⟩],
    players := [⟨"B", [⟨3⟩, ⟨4⟩, ⟨5⟩, ⟨6⟩]⟩], current_player := 0,
    kabo := none, hand_card := none }

/-- Run one pre-game peek, keeping only a successful outcome's state. -/
def peekOk (pg : PreGame) (p i : Nat) : Option PreGame :=
  match pg.peek p i with
  | some (.ok _, pg') => some pg'
  | _ => none

/-- The remaining five peeks of the example scenario: player 0's second
peek, then both of player 1's, then both of player 2's. -/
def chainPeeks (pg : PreGame) : Option PreGame :=
  ((((peekOk pg 0 1).bind fun a => peekOk a 1 0).bind fun a => peekOk a 1 1).bind
      fun a => peekOk a 2 0).bind fun a => peekOk a 2 1

/-- End-of-turn events: `EndTurn` or `GameOver`. -/
def isEndEvent : GameEvent → Bool
  | .EndTurn _ => true
  | .GameOver => true
  | _ => false

/-- One full turn of the spec's Kabo-termination scenario, built from the
public API: draw the discard pile's top and immediately discard it. -/
def Game.doTurn (g : Game) : Option (List GameEvent × Game) :=
  match g.discard_draw with
  | some (.ok evs1, g1) =>
    match g1.discard with
    | some (.ok evs2, g2) => some (evs1 ++ evs2, g2)
    | _ => none
  | _ => none

/-- Iterate `doTurn` a given number of times, concatenating events. -/
def Game.kaboLoop : Game → Nat → Option (List GameEvent × Game)
  | g, 0 => some ([], g)
  | g, m + 1 =>
    match g.doTurn with
    | none => none
    | some (evs, g1) =>
      match g1.kaboLoop m with
      | none => none
      | some (evs', g2) => some (evs ++ evs', g2)

/-- The events of `m` consecutive `doTurn`s on an `n`-player game with
Kabo caller `k` and top discard `t`, starting `s` seats past the caller. -/
def turnEvents (t : Card) (k n : Nat) : Nat → Nat → List GameEvent
  | _, 0 => []
  | s, m + 1 =>
    [GameEvent.Discards [t],
     if s + 1 = n then GameEvent.GameOver
     else GameEvent.EndTurn ((k + s + 1) % n)] ++ turnEvents t k n (s + 1) m

def witnessG5some : Game :=
  { deck := [], discard_pile := [⟨1⟩], players := [⟨"A", [⟨2⟩]⟩, ⟨"B", [⟨3⟩]⟩],
    current_player := 1, kabo := some 0, hand_card := none }

def witnessG5none : Game :=
  { deck := [], discard_pile := [⟨1⟩], players := [⟨"A", [⟨2⟩]⟩, ⟨"B", [⟨3⟩]⟩],
    current_player := 0, kabo := none, hand_card := none }

/-! ### Theorems -/

/-!
Verification development for a Kabo/Cabo-style card-game engine.

The data model and operations below are a shallow embedding of the
engine's core module (`game.rs`): `Card`, `Player`, `PreGame`, `Game`,
the event/error vocabulary, and one Lean function per public operation.
Rust `Vec<Card>` is modelled as `List Card` in the same order
(`push` appends at the end, `pop` removes the last element).  A panic
(assertion failure, `unwrap` on `None`, out-of-range indexing, or an
`unimplemented!` branch) is modelled as `none`; a recoverable error is
`some (.error e, s)` together with the post-call state `s`; success is
`some (.ok events, s)`.  Shuffling, which the code performs with a
thread-local random generator, is modelled by an explicit function
parameter `sh : List Card → List Card`; theorems assume only that it
permutes its input.
-/

/-! ### Phase guards and error paths -/

/-- C9: with a held card whose rank is neither 7 nor 8, the in-turn peek
action fails with `WrongCard` for all argument values and leaves the game
unchanged. -/
theorem C9_peek_wrong_card (g : Game) (c : Card) (hHand : g.hand_card = some c)
    (h7 : c.rank ≠ 7) (h8 : c.rank ≠ 8) :
    ∀ p i, g.peek p i = some (.error .WrongCard, g) := by
  intro p i
  simp [Game.peek, hHand, h7, h8]

/-- Witness for C9 at a concrete game holding a rank-3 card. -/
theorem C9_peek_wrong_card_witness :
    witnessG9.peek 0 0 = some (.error .WrongCard, witnessG9) :=
  C9_peek_wrong_card witnessG9 ⟨3⟩ rfl (by decide) (by decide) 0 0

/-- C3 (amended): with no held card, `discard`, `replace`, in-turn `peek`,
and `multi_replace` *with at least two indices* fail with `WrongPhase`,
while `multi_replace` with fewer than two indices fails with
`InvalidIndex` (its index-arity check precedes the phase guard); with a
held card, `deck_draw`, `discard_draw` and `announce_kabo` fail with
`WrongPhase`; the game is unchanged in every case. -/
theorem C3_phase_guards (g : Game) :
    (g.hand_card = none →
      g.discard = some (.error .WrongPhase, g) ∧
      (∀ p i, g.replace p i = some (.error .WrongPhase, g)) ∧
      (∀ p idxs, 2 ≤ idxs.length →
        g.multi_replace p idxs = some (.error .WrongPhase, g)) ∧
      (∀ p idxs, idxs.length < 2 →
        g.multi_replace p idxs = some (.error .InvalidIndex, g)) ∧
      (∀ p i, g.peek p i = some (.error .WrongPhase, g))) ∧
    (∀ c, g.hand_card = some c →
      (∀ sh, g.deck_draw sh = some (.error .WrongPhase, g)) ∧
      g.discard_draw = some (.error .WrongPhase, g) ∧
      g.announce_kabo = some (.error .WrongPhase, g)) := by
  constructor
  · intro h
    refine ⟨?_, ?_, ?_, ?_, ?_⟩
    · simp [Game.discard, h]
    · intro p i; simp [Game.replace, h]
    · intro p idxs hlen
      simp [Game.multi_replace, Nat.not_lt.mpr hlen, h]
    · intro p idxs hlen
      simp [Game.multi_replace, hlen]
    · intro p i; simp [Game.peek, h]
  · intro c h
    refine ⟨?_, ?_, ?_⟩
    · intro sh; simp [Game.deck_draw, h]
    · simp [Game.discard_draw, h]
    · simp [Game.announce_kabo, h]

/-- C3 counterexample: with no held card, `multi_replace` applied to an
empty index list returns `InvalidIndex`, not the `WrongPhase` the claim
demands for every argument value. -/
theorem C3_counterexample :
    cexG3.hand_card = none ∧
    cexG3.multi_replace 0 [] = some (.error .InvalidIndex, cexG3) ∧
    GameError.InvalidIndex ≠ GameError.WrongPhase :=
  ⟨rfl, rfl, by decide⟩

/-- Witness for C3 at concrete games in both phases. -/
theorem C3_phase_guards_witness :
    witnessG3none.discard = some (.error .WrongPhase, witnessG3none) ∧
    witnessG3none.multi_replace 0 [0, 1] = some (.error .WrongPhase, witnessG3none) ∧
    witnessG3some.discard_draw = some (.error .WrongPhase, witnessG3some) :=
  ⟨((C3_phase_guards witnessG3none).1 rfl).1,
   ((C3_phase_guards witnessG3none).1 rfl).2.2.1 0 [0, 1] (by decide),
   ((C3_phase_guards witnessG3some).2 ⟨4⟩ rfl).2.1⟩

/-- C2: `peek` with an out-of-range card index returns `InvalidIndex` but
does *not* leave the `PreGame` unchanged — the per-player and total peek
counters are decremented before the index is validated.  Evaluated at the
failing input `cexPG2.peek 0 4`. -/
theorem C2_peek_invalid_index_mutates :
    cexPG2.peek 0 4 = some (.error .InvalidIndex, cexPG2') ∧
    cexPG2'.total_peeks_left = 1 ∧ cexPG2.total_peeks_left = 2 ∧
    cexPG2' ≠ cexPG2 :=
  ⟨rfl, rfl, rfl, by decide⟩

/-- C7 (amended): with a held card, `replace` with a *valid* player index
and an out-of-range card index fails with `InvalidIndex` and leaves the
game unchanged; an out-of-range player index is a caller-contract
violation and panics instead of returning an error. -/
theorem C7_replace_invalid_index (g : Game) (c : Card) (hHand : g.hand_card = some c) :
    (∀ p pl i, g.players[p]? = some pl → pl.cards.length ≤ i →
      g.replace p i = some (.error .InvalidIndex, g)) ∧
    (∀ p i, g.players.length ≤ p → g.replace p i = none) := by
  constructor
  · intro p pl i hp hi
    have hc : pl.cards[i]? = none := List.getElem?_eq_none hi
    simp [Game.replace, hHand, hp, hc]
  · intro p i hp
    have hq : g.players[p]? = none := List.getElem?_eq_none hp
    simp [Game.replace, hHand, hq]

/-- C7 counterexample: with both the player index and the card index out
of range, `replace` panics (modelled `none`) instead of returning
`InvalidIndex`. -/
theorem C7_counterexample :
    cexG7.hand_card = some ⟨5⟩ ∧
    cexG7.replace 1 1 = (none : GStatus) ∧
    (none : GStatus) ≠ some (.error .InvalidIndex, cexG7) :=
  ⟨rfl, rfl, fun h => Option.noConfusion h⟩

/-- Witness for C7's amended statement at a concrete game. -/
theorem C7_replace_invalid_index_witness :
    witnessG7.replace 0 3 = some (.error .InvalidIndex, witnessG7) ∧
    witnessG7.replace 2 0 = none :=
  ⟨(C7_replace_invalid_index witnessG7 ⟨6⟩ rfl).1 0 ⟨"A", [⟨1⟩]⟩ 3 rfl (by decide),
   (C7_replace_invalid_index witnessG7 ⟨6⟩ rfl).2 2 0 (by decide)⟩

/-! ### Successful actions -/

/-- `end_turn` on a state holding no card: it succeeds, touches only the
cursor, and yields either an `EndTurn` or the `GameOver` event. -/
lemma end_turn_spec (g : Game) (h : g.hand_card = none) :
    ∃ e g', g.end_turn = some (e, g') ∧
      g'.deck = g.deck ∧ g'.discard_pile = g.discard_pile ∧
      g'.players = g.players ∧ g'.kabo = g.kabo ∧ g'.hand_card = none ∧
      ((∃ q, e = GameEvent.EndTurn q) ∨ e = GameEvent.GameOver) := by
  obtain ⟨d, pile, ps, cp0, kb, hc⟩ := g
  dsimp only at h
  subst h
  unfold Game.end_turn
  rcases kb with _ | k
  · exact ⟨_, _, rfl, rfl, rfl, rfl, rfl, rfl, .inl ⟨_, rfl⟩⟩
  · dsimp only
    by_cases hke : k = advance cp0 ps.length
    · rw [if_pos hke]
      exact ⟨_, _, rfl, rfl, rfl, rfl, rfl, rfl, .inr rfl⟩
    · rw [if_neg hke]
      exact ⟨_, _, rfl, rfl, rfl, rfl, rfl, rfl, .inl ⟨_, rfl⟩⟩

/-- C6: holding `X` while player `p`'s slot `i` holds `Y`, `replace p i`
succeeds; afterwards slot `i` holds `X`, the discard pile's top is `Y`,
the hand slot is empty, and the events are the `Discards` for `Y`
followed by exactly one end-turn event. -/
theorem C6_replace_swaps (g : Game) (X Y : Card) (p i : Nat) (pl : Player)
    (hHand : g.hand_card = some X) (hp : g.players[p]? = some pl)
    (hi : pl.cards[i]? = some Y) :
    ∃ e g', g.replace p i = some (.ok [.Discards [Y], e], g') ∧
      (∃ pl', g'.players[p]? = some pl' ∧ pl'.cards[i]? = some X) ∧
      g'.discard_pile.getLast? = some Y ∧ g'.hand_card = none ∧
      ((∃ q, e = GameEvent.EndTurn q) ∨ e = GameEvent.GameOver) := by
  have hplen : p < g.players.length := by
    rcases Nat.lt_or_ge p g.players.length with hl | hl
    · exact hl
    · rw [List.getElem?_eq_none hl] at hp; cases hp
  have hilen : i < pl.cards.length := by
    rcases Nat.lt_or_ge i pl.cards.length with hl | hl
    · exact hl
    · rw [List.getElem?_eq_none hl] at hi; cases hi
  obtain ⟨e, g3, he, _, hpile3, hplayers3, _, hhand3, hcase⟩ :=
    end_turn_spec
      { g with players := g.players.set p { pl with cards := pl.cards.set i X },
               discard_pile := g.discard_pile ++ [Y], hand_card := none } rfl
  refine ⟨e, g3, ?_, ?_, ?_, hhand3, hcase⟩
  · simp only [Game.replace, hHand, hp, hi, Game.discard_and_end]
    rw [he]
  · refine ⟨{ pl with cards := pl.cards.set i X }, ?_, ?_⟩
    · rw [hplayers3]
      exact List.getElem?_set_eq_of_lt _ hplen
    · exact List.getElem?_set_eq_of_lt _ hilen
  · rw [hpile3]
    exact List.getLast?_concat _

/-- Witness for C6 at a concrete one-player game. -/
theorem C6_replace_swaps_witness :
    ∃ e g', witnessG6.replace 0 1 = some (.ok [.Discards [⟨1⟩], e], g') ∧
      (∃ pl', g'.players[0]? = some pl' ∧ pl'.cards[1]? = some ⟨4⟩) ∧
      g'.discard_pile.getLast? = some ⟨1⟩ ∧ g'.hand_card = none ∧
      ((∃ q, e = GameEvent.EndTurn q) ∨ e = GameEvent.GameOver) :=
  C6_replace_swaps witnessG6 ⟨4⟩ ⟨1⟩ 0 1 ⟨"A", [⟨7⟩, ⟨1⟩]⟩ rfl rfl rfl

/-- `deck_draw` on an empty deck with at least four discards: the discard
pile is swapped in, shuffled, and drawn from; the drawn card together
with the new deck is a permutation of the old discard pile, and the
discard pile is left empty. -/
lemma deck_draw_reshuffle (sh : List Card → List Card) (g : Game)
    (hsh : (sh g.discard_pile).Perm g.discard_pile)
    (hHand : g.hand_card = none) (hDeck : g.deck = [])
    (hPile : 4 ≤ g.discard_pile.length) :
    ∃ c, g.deck_draw sh =
      some (.ok [.DiscardShuffle],
        { g with deck := (sh g.discard_pile).dropLast, discard_pile := [],
                 hand_card := some c }) ∧
      (c :: (sh g.discard_pile).dropLast).Perm g.discard_pile := by
  have hlen : (sh g.discard_pile).length = g.discard_pile.length := hsh.length_eq
  have hne : sh g.discard_pile ≠ [] := by
    intro h0
    rw [h0] at hlen
    simp only [List.length_nil] at hlen
    omega
  refine ⟨(sh g.discard_pile).getLast hne, ?_, ?_⟩
  · simp only [Game.deck_draw, hHand, hDeck, popCard, List.getLast?_nil, if_pos hPile]
    rw [List.getLast?_eq_getLast _ hne]
  · have hsplit : (sh g.discard_pile).dropLast ++ [(sh g.discard_pile).getLast hne] =
        sh g.discard_pile := List.dropLast_append_getLast hne
    have h1 : ((sh g.discard_pile).getLast hne :: (sh g.discard_pile).dropLast).Perm
        ((sh g.discard_pile).dropLast ++ [(sh g.discard_pile).getLast hne]) :=
      (List.perm_append_singleton _ _).symm
    exact h1.trans (by rw [hsplit]; exact hsh)

/-- C4: on a deck-exhausted state (empty deck, ≥ 4 discards, no held
card), `deck_draw` succeeds, emits exactly the `DiscardShuffle` event,
leaves a card in hand, and hand card plus new deck form a permutation of
the prior discard pile. -/
theorem C4_deck_exhaustion (g : Game) (sh : List Card → List Card)
    (hsh : ∀ l : List Card, (sh l).Perm l)
    (hHand : g.hand_card = none) (hDeck : g.deck = [])
    (hPile : 4 ≤ g.discard_pile.length) :
    ∃ c g', g.deck_draw sh = some (.ok [.DiscardShuffle], g') ∧
      g'.hand_card = some c ∧ (c :: g'.deck).Perm g.discard_pile := by
  obtain ⟨c, hdraw, hperm⟩ := deck_draw_reshuffle sh g (hsh _) hHand hDeck hPile
  exact ⟨c, _, hdraw, rfl, hperm⟩

/-- Witness for C4 with the identity shuffle at a concrete game. -/
theorem C4_deck_exhaustion_witness :
    ∃ c g', witnessG4.deck_draw id = some (.ok [.DiscardShuffle], g') ∧
      g'.hand_card = some c ∧ (c :: g'.deck).Perm witnessG4.discard_pile :=
  C4_deck_exhaustion witnessG4 id (fun l => List.Perm.refl l) rfl rfl (by decide)

/-- C10: the reshuffling `deck_draw` leaves the discard pile completely
empty — no top card is retained — and every card of the former discard
pile ends up in the new deck or in the hand slot. -/
theorem C10_reshuffle_empties_discard (g : Game) (sh : List Card → List Card)
    (hsh : ∀ l : List Card, (sh l).Perm l)
    (hHand : g.hand_card = none) (hDeck : g.deck = [])
    (hPile : 4 ≤ g.discard_pile.length) :
    ∃ g', g.deck_draw sh = some (.ok [.DiscardShuffle], g') ∧
      g'.discard_pile = [] ∧
      ∃ c, g'.hand_card = some c ∧ (c :: g'.deck).Perm g.discard_pile := by
  obtain ⟨c, hdraw, hperm⟩ := deck_draw_reshuffle sh g (hsh _) hHand hDeck hPile
  exact ⟨_, hdraw, rfl, c, rfl, hperm⟩

/-- Witness for C10 with the identity shuffle at a concrete game. -/
theorem C10_reshuffle_empties_discard_witness :
    ∃ g', witnessG10.deck_draw id = some (.ok [.DiscardShuffle], g') ∧
      g'.discard_pile = [] ∧
      ∃ c, g'.hand_card = some c ∧ (c :: g'.deck).Perm witnessG10.discard_pile :=
  C10_reshuffle_empties_discard witnessG10 id (fun l => List.Perm.refl l) rfl rfl
    (by decide)

/-! ### Reachability and the card-count invariant -/

lemma popCard_eq_some {l l' : List Card} {c : Card}
    (h : popCard l = some (c, l')) :
    l.getLast? = some c ∧ l' = l.dropLast ∧ l'.length + 1 = l.length := by
  unfold popCard at h
  rcases hg : l.getLast? with _ | c0 <;> rw [hg] at h
  · cases h
  · cases h
    have hne : l ≠ [] := by rintro rfl; cases hg
    refine ⟨rfl, rfl, ?_⟩
    rw [List.length_dropLast]
    have hpos : 0 < l.length := List.length_pos.mpr hne
    omega

lemma popCard_eq_none {l : List Card} (h : popCard l = none) : l = [] := by
  unfold popCard at h
  rcases hg : l.getLast? with _ | c0 <;> rw [hg] at h
  · exact List.getLast?_eq_none_iff.mp hg
  · cases h

lemma sum_map_cards_set (ps : List Player) (p : Nat) (pl pl' : Player)
    (hp : ps[p]? = some pl) (hlen : pl'.cards.length = pl.cards.length) :
    ((ps.set p pl').map fun q => q.cards.length).sum =
      (ps.map fun q => q.cards.length).sum := by
  induction ps generalizing p with
  | nil => cases hp
  | cons a as ih =>
    cases p with
    | zero =>
      rw [List.getElem?_cons_zero] at hp
      cases hp
      simp [hlen]
    | succ n =>
      rw [List.getElem?_cons_succ] at hp
      simp only [List.set_cons_succ, List.map_cons, List.sum_cons, ih n hp]

/-- Every successful action preserves the held-card-inclusive total. -/
lemma Step_totalCount {g g' : Game} (h : Game.Step g g') :
    g'.totalCount = g.totalCount := by
  cases h with
  | deck_draw sh hsh evs h =>
    unfold Game.deck_draw at h
    rcases hh : g.hand_card with _ | c <;> rw [hh] at h
    swap
    · cases h
    rcases hp : popCard g.deck with _ | ⟨c0, deck'⟩ <;> rw [hp] at h
    · have hdeck : g.deck = [] := popCard_eq_none hp
      dsimp only at h
      split at h
      · cases h
        have hshlen : (sh g.discard_pile).length = g.discard_pile.length :=
          (hsh g.discard_pile).length_eq
        have hne : sh g.discard_pile ≠ [] := by
          intro h0; rw [h0] at hshlen; simp only [List.length_nil] at hshlen; omega
        simp only [Game.totalCount, Game.containerCount, hh, hdeck,
          List.getLast?_eq_getLast _ hne, List.length_dropLast, List.length_nil]
        omega
      · cases h
    · obtain ⟨-, -, hlen⟩ := popCard_eq_some hp
      cases h
      simp only [Game.totalCount, Game.containerCount, hh]
      omega
  | discard_draw evs h =>
    unfold Game.discard_draw at h
    rcases hh : g.hand_card with _ | c <;> rw [hh] at h
    swap
    · cases h
    rcases hp : popCard g.discard_pile with _ | ⟨c0, pile'⟩ <;> rw [hp] at h
    · cases h
    · obtain ⟨-, -, hlen⟩ := popCard_eq_some hp
      cases h
      simp only [Game.totalCount, Game.containerCount, hh]
      omega
  | announce_kabo evs h =>
    unfold Game.announce_kabo at h
    rcases hh : g.hand_card with _ | c <;> rw [hh] at h
    swap
    · cases h
    rcases hk : g.kabo with _ | k <;> rw [hk] at h
    swap
    · cases h
    dsimp only at h
    obtain ⟨e, g2, he, hdeck, hpile, hplayers, -, hhand, -⟩ :=
      end_turn_spec { g with kabo := some g.current_player, hand_card := none } rfl
    rw [he] at h
    cases h
    simp only [Game.totalCount, Game.containerCount, hdeck, hpile, hplayers,
      hhand, hh]
  | discard evs h =>
    unfold Game.discard at h
    rcases hh : g.hand_card with _ | c <;> rw [hh] at h
    · cases h
    unfold Game.discard_and_end at h
    rw [hh] at h
    dsimp only at h
    obtain ⟨e, g2, he, hdeck, hpile, hplayers, -, hhand, -⟩ :=
      end_turn_spec
        { g with discard_pile := g.discard_pile ++ [c], hand_card := none } rfl
    rw [he] at h
    cases h
    simp only [Game.totalCount, Game.containerCount, hdeck, hpile, hplayers,
      hhand, hh, List.length_append, List.length_cons, List.length_nil]
    omega
  | replace p i evs h =>
    unfold Game.replace at h
    split at h
    · cases h
    rename_i hc hh
    split at h
    · cases h
    rename_i player hp
    split at h
    · cases h
    rename_i fd hi
    unfold Game.discard_and_end at h
    dsimp only at h
    obtain ⟨e, g2, he, hdeck, hpile, hplayers, -, hhand, -⟩ :=
      end_turn_spec
        { g with players := g.players.set p { player with cards := player.cards.set i hc },
                 discard_pile := g.discard_pile ++ [fd], hand_card := none } rfl
    rw [he] at h
    cases h
    have hsum : ((g.players.set p { player with cards := player.cards.set i hc }).map
        fun q => q.cards.length).sum = (g.players.map fun q => q.cards.length).sum :=
      sum_map_cards_set g.players p player _ hp (by simp)
    simp only [Game.totalCount, Game.containerCount, hdeck, hpile, hplayers,
      hhand, hh, hsum, List.length_append, List.length_cons, List.length_nil]
    omega

lemma Reachable_totalCount {g g' : Game} (h : Game.Reachable g g') :
    g'.totalCount = g.totalCount := by
  induction h with
  | refl => rfl
  | tail hr hs ih => rw [Step_totalCount hs, ih]

lemma InitialGame_totalCount {g : Game} (h : InitialGame g) : g.totalCount = 52 := by
  obtain ⟨pg, hpg⟩ := h
  unfold PreGame.to_game at hpg
  split at hpg
  case isTrue hcond =>
    cases hpg
    simp only [Game.totalCount, Game.containerCount, List.map_map]
    have := hcond.1
    unfold PreGame.total_card_amout at this
    simpa [Function.comp] using this
  case isFalse => cases hpg

/-- C1 (amended): for every game reachable from an initial game by
successful actions, the deck, discard pile, hands *and the held card*
together hold exactly 52 cards; the spec's hand-excluding count equals 52
only while no card is held. -/
theorem C1_card_count_invariant (g0 g : Game) (h0 : InitialGame g0)
    (hr : Game.Reachable g0 g) :
    g.totalCount = 52 ∧ (g.hand_card = none → g.containerCount = 52) := by
  have ht : g.totalCount = 52 := (Reachable_totalCount hr).trans (InitialGame_totalCount h0)
  refine ⟨ht, fun hn => ?_⟩
  unfold Game.totalCount at ht
  rw [hn] at ht
  simpa using ht

/-- C1 counterexample: one successful `deck_draw` from an initial game
reaches a state holding a card whose deck + discard + hands count is 51,
not 52 — the claim's count, which excludes the held card, fails as soon
as `hand_card` is `Some`. -/
theorem C1_counterexample :
    ¬ (∀ g0 g : Game, InitialGame g0 → Game.Reachable g0 g →
        g.containerCount = 52) := by
  intro hclaim
  have h0 : InitialGame cexG0 := ⟨cexPG1, by decide⟩
  have hstep : Game.Step cexG0 cexG1 :=
    .deck_draw id (fun l => List.Perm.refl l) [] rfl
  have h51 : cexG1.containerCount = 51 := by decide
  have := hclaim cexG0 cexG1 h0 (.tail (.refl _) hstep)
  omega

/-- Witness for C1's amended statement at a concrete initial game. -/
theorem C1_card_count_invariant_witness :
    witnessG1.totalCount = 52 ∧ (witnessG1.hand_card = none → witnessG1.containerCount = 52) :=
  C1_card_count_invariant witnessG1 witnessG1 ⟨witnessPG1, by decide⟩ (.refl _)

/-! ### The pre-game example scenario -/

lemma popCard_of_ne_nil {l : List Card} (h : l ≠ []) :
    popCard l = some (l.getLast h, l.dropLast) := by
  unfold popCard
  rw [List.getLast?_eq_getLast _ h]

lemma getElem?_isSome_of_lt {l : List Card} {i : Nat} (h : i < l.length) :
    ∃ c, l[i]? = some c := by
  rcases hg : l[i]? with _ | c
  · rw [List.getElem?_eq_none_iff] at hg
    omega
  · exact ⟨c, rfl⟩

lemma dealLoop_cons (cpp : Nat) (name : String) (rest : List String)
    (deck : List Card) (acc : List (Player × Nat)) (h : cpp ≤ deck.length) :
    dealLoop cpp (name :: rest) deck acc =
      dealLoop cpp rest (deck.take (deck.length - cpp))
        (acc ++ [(⟨name, deck.drop (deck.length - cpp)⟩, 2)]) := by
  conv_lhs => rw [dealLoop]
  rw [if_pos h]

lemma dealLoop_nil (cpp : Nat) (deck : List Card) (acc : List (Player × Nat)) :
    dealLoop cpp [] deck acc = some (deck, acc) := rfl

/-- The six-peek chain on a three-player pre-game with four-card hands:
player 0's first peek succeeds and leaves their allowance at 1; the
remaining five peeks succeed; `to_game` then yields the initial game. -/
lemma peek_chain_spec (D P : List Card) (nA nB nC : String) (cA cB cC : List Card)
    (hD : D.length = 39) (hP : P.length = 1)
    (hA : cA.length = 4) (hB : cB.length = 4) (hC : cC.length = 4) :
    ∃ c pg1,
      (PreGame.mk D P [(⟨nA, cA⟩, 2), (⟨nB, cB⟩, 2), (⟨nC, cC⟩, 2)] 6).peek 0 0 =
        some (.ok c, pg1) ∧
      (∃ pl0, pg1.players[0]? = some pl0 ∧ pl0.2 = 1) ∧
      ∃ pg6, chainPeeks pg1 = some pg6 ∧
        ∃ gm, pg6.to_game = some gm ∧
          gm.current_player = 0 ∧ gm.hand_card = none ∧ gm.kabo = none := by
  obtain ⟨a0, ha0⟩ := getElem?_isSome_of_lt (l := cA) (i := 0) (by rw [hA]; decide)
  obtain ⟨a1, ha1⟩ := getElem?_isSome_of_lt (l := cA) (i := 1) (by rw [hA]; decide)
  obtain ⟨b0, hb0⟩ := getElem?_isSome_of_lt (l := cB) (i := 0) (by rw [hB]; decide)
  obtain ⟨b1, hb1⟩ := getElem?_isSome_of_lt (l := cB) (i := 1) (by rw [hB]; decide)
  obtain ⟨c0, hc0⟩ := getElem?_isSome_of_lt (l := cC) (i := 0) (by rw [hC]; decide)
  obtain ⟨c1, hc1⟩ := getElem?_isSome_of_lt (l := cC) (i := 1) (by rw [hC]; decide)
  refine ⟨a0, PreGame.mk D P [(⟨nA, cA⟩, 1), (⟨nB, cB⟩, 2), (⟨nC, cC⟩, 2)] 5,
    ?_, ⟨(⟨nA, cA⟩, 1), by simp, rfl⟩, ?_⟩
  · simp [PreGame.peek, ha0]
  refine ⟨PreGame.mk D P [(⟨nA, cA⟩, 0), (⟨nB, cB⟩, 0), (⟨nC, cC⟩, 0)] 0, ?_, ?_⟩
  · simp [chainPeeks, peekOk, PreGame.peek, ha1, hb0, hb1, hc0, hc1]
  refine ⟨Game.mk D P [⟨nA, cA⟩, ⟨nB, cB⟩, ⟨nC, cC⟩] 0 none none, ?_, rfl, rfl, rfl⟩
  rw [PreGame.to_game, if_pos]
  · simp
  · refine ⟨?_, rfl, by simp⟩
    unfold PreGame.total_card_amout
    simp [hD, hP, hA, hB, hC, DECK_SIZE]

/-- C8: `PreGame::new(["A","B","C"], 4)` yields a 39-card deck, a 1-card
discard pile, three players with four cards and two peeks each; `peek(0,0)`
succeeds and leaves player 0's allowance at 1; after the remaining five
peeks, `to_game` yields a game with cursor 0, no held card and no Kabo. -/
theorem C8_pregame_scenario (sh : List Card → List Card) (hsh : IsShuffle sh) :
    ∃ pg, PreGame.new sh ["A", "B", "C"] 4 = some pg ∧
      pg.deck.length = 39 ∧ pg.discard_pile.length = 1 ∧
      pg.players.length = 3 ∧
      (∀ pl ∈ pg.players, pl.1.cards.length = 4 ∧ pl.2 = 2) ∧
      ∃ c pg1, pg.peek 0 0 = some (.ok c, pg1) ∧
        (∃ pl0, pg1.players[0]? = some pl0 ∧ pl0.2 = 1) ∧
        ∃ pg6, chainPeeks pg1 = some pg6 ∧
          ∃ gm, pg6.to_game = some gm ∧
            gm.current_player = 0 ∧ gm.hand_card = none ∧ gm.kabo = none := by
  have hbase : baseDeck.length = 52 := by decide
  have hd52 : (Card.full_deck sh).length = 52 := by
    unfold Card.full_deck
    exact (hsh baseDeck).length_eq.trans hbase
  have hdne : Card.full_deck sh ≠ [] := by
    intro h0
    rw [h0] at hd52
    cases hd52
  have h51 : (Card.full_deck sh).dropLast.length = 51 := by
    rw [List.length_dropLast, hd52]
  have h47 : ((Card.full_deck sh).dropLast.take 47).length = 47 := by
    rw [List.length_take, h51]
    omega
  have h43 : (((Card.full_deck sh).dropLast.take 47).take 43).length = 43 := by
    rw [List.length_take, h47]
    omega
  have h39 : ((((Card.full_deck sh).dropLast.take 47).take 43).take 39).length = 39 := by
    rw [List.length_take, h43]
    omega
  have hA : ((Card.full_deck sh).dropLast.drop 47).length = 4 := by
    rw [List.length_drop, h51]
  have hB : (((Card.full_deck sh).dropLast.take 47).drop 43).length = 4 := by
    rw [List.length_drop, h47]
  have hC : ((((Card.full_deck sh).dropLast.take 47).take 43).drop 39).length = 4 := by
    rw [List.length_drop, h43]
  have hnew : PreGame.new sh ["A", "B", "C"] 4 =
      some (PreGame.mk ((((Card.full_deck sh).dropLast.take 47).take 43).take 39)
        [(Card.full_deck sh).getLast hdne]
        [(⟨"A", (Card.full_deck sh).dropLast.drop 47⟩, 2),
         (⟨"B", ((Card.full_deck sh).dropLast.take 47).drop 43⟩, 2),
         (⟨"C", (((Card.full_deck sh).dropLast.take 47).take 43).drop 39⟩, 2)] 6) := by
    unfold PreGame.new
    rw [if_pos (show (Card.full_deck sh).length = DECK_SIZE from hd52)]
    rw [popCard_of_ne_nil hdne]
    dsimp only
    rw [dealLoop_cons 4 "A" _ _ _ (by rw [h51]; decide)]
    rw [h51]
    norm_num
    rw [dealLoop_cons 4 "B" _ _ _ (by rw [h47]; decide)]
    rw [h47]
    norm_num
    rw [dealLoop_cons 4 "C" _ _ _ (by rw [h43]; decide)]
    rw [h43]
    norm_num
    rw [dealLoop_nil]
    rfl
  refine ⟨_, hnew, h39, rfl, rfl, ?_, ?_⟩
  · intro pl hpl
    simp only [List.mem_cons, List.not_mem_nil, or_false] at hpl
    rcases hpl with rfl | rfl | rfl
    · exact ⟨hA, rfl⟩
    · exact ⟨hB, rfl⟩
    · exact ⟨hC, rfl⟩
  · exact peek_chain_spec _ _ "A" "B" "C" _ _ _ h39 rfl hA hB hC

/-- Witness for C8 with the identity shuffle. -/
theorem C8_pregame_scenario_witness :
    ∃ pg, PreGame.new id ["A", "B", "C"] 4 = some pg ∧
      pg.deck.length = 39 ∧ pg.discard_pile.length = 1 ∧
      pg.players.length = 3 ∧
      (∀ pl ∈ pg.players, pl.1.cards.length = 4 ∧ pl.2 = 2) ∧
      ∃ c pg1, pg.peek 0 0 = some (.ok c, pg1) ∧
        (∃ pl0, pg1.players[0]? = some pl0 ∧ pl0.2 = 1) ∧
        ∃ pg6, chainPeeks pg1 = some pg6 ∧
          ∃ gm, pg6.to_game = some gm ∧
            gm.current_player = 0 ∧ gm.hand_card = none ∧ gm.kabo = none :=
  C8_pregame_scenario id (fun l => List.Perm.refl l)

/-! ### Kabo announcement and termination -/

lemma advance_eq_mod {cp n : Nat} (h : cp < n) : advance cp n = (cp + 1) % n := by
  unfold advance
  by_cases h1 : cp + 1 = n
  · rw [if_pos h1, h1, Nat.mod_self]
  · rw [if_neg h1, Nat.mod_eq_of_lt (by omega)]

lemma add_mod_eq_self_iff (k c n : Nat) (hk : k < n) (hc1 : 0 < c) (hc2 : c ≤ n) :
    (k + c) % n = k ↔ c = n := by
  constructor
  · intro h
    by_contra hne
    have hcn : c < n := by omega
    rcases Nat.lt_or_ge (k + c) n with h1 | h1
    · rw [Nat.mod_eq_of_lt h1] at h
      omega
    · rw [Nat.mod_eq_sub_mod h1, Nat.mod_eq_of_lt (by omega)] at h
      omega
  · rintro rfl
    rw [Nat.add_mod_right, Nat.mod_eq_of_lt hk]

lemma mod_add_one_mod (a n : Nat) (hn : 2 ≤ n) : (a % n + 1) % n = (a + 1) % n := by
  conv_rhs => rw [Nat.add_mod]
  rw [Nat.mod_eq_of_lt (show (1 : Nat) < n by omega)]

/-- `end_turn` with a pending Kabo and an in-range cursor: the cursor
advances modulo the player count, and `GameOver` fires exactly when it
lands on the caller. -/
lemma end_turn_kabo (g : Game) (k : Nat) (h : g.hand_card = none)
    (hk : g.kabo = some k) (hcp : g.current_player < g.players.length) :
    g.end_turn = some
      ((if k = (g.current_player + 1) % g.players.length then GameEvent.GameOver
        else GameEvent.EndTurn ((g.current_player + 1) % g.players.length)),
       { g with current_player := (g.current_player + 1) % g.players.length }) := by
  obtain ⟨d, pile, ps, cp, kb, hc⟩ := g
  dsimp only at h hk hcp ⊢
  subst h hk
  unfold Game.end_turn
  dsimp only
  rw [advance_eq_mod hcp]
  by_cases hke : k = (cp + 1) % ps.length
  · rw [if_pos hke, if_pos hke]
  · rw [if_neg hke, if_neg hke]

/-- `announce_kabo` on a Kabo-free state with at least two players:
records the caller, emits `Kabo` then `EndTurn` onto the next player. -/
lemma announce_kabo_spec (g : Game) (hHand : g.hand_card = none) (hk : g.kabo = none)
    (hcp : g.current_player < g.players.length) (hn : 2 ≤ g.players.length) :
    g.announce_kabo = some
      (.ok [.Kabo g.current_player,
            .EndTurn ((g.current_player + 1) % g.players.length)],
       { g with kabo := some g.current_player,
                current_player := (g.current_player + 1) % g.players.length }) := by
  have hne : ¬ (g.current_player = (g.current_player + 1) % g.players.length) := by
    intro heq
    have h1 := (add_mod_eq_self_iff g.current_player 1 g.players.length hcp
      (by omega) (by omega)).mp heq.symm
    omega
  unfold Game.announce_kabo
  rw [hHand]
  dsimp only
  rw [hk]
  dsimp only
  rw [end_turn_kabo { g with kabo := some g.current_player, hand_card := none }
    g.current_player rfl rfl hcp]
  rw [if_neg hne]

/-- `doTurn` on a Kabo-pending state with a nonempty discard pile: the
drawn top card is immediately re-discarded, so only the cursor moves. -/
lemma doTurn_spec (g : Game) (k : Nat) (t : Card) (hHand : g.hand_card = none)
    (hk : g.kabo = some k) (ht : g.discard_pile.getLast? = some t)
    (hcp : g.current_player < g.players.length) :
    g.doTurn = some
      ([.Discards [t],
        if k = (g.current_player + 1) % g.players.length then GameEvent.GameOver
        else GameEvent.EndTurn ((g.current_player + 1) % g.players.length)],
       { g with current_player := (g.current_player + 1) % g.players.length }) := by
  obtain ⟨d, pile, ps, cp, kb, hc⟩ := g
  dsimp only at hHand hk ht hcp ⊢
  subst hHand hk
  have hpop : popCard pile = some (t, pile.dropLast) := by
    unfold popCard
    rw [ht]
  have hrestore : pile.dropLast ++ [t] = pile := List.dropLast_append_getLast? t ht
  unfold Game.doTurn Game.discard_draw
  dsimp only
  rw [hpop]
  dsimp only
  unfold Game.discard Game.discard_and_end
  dsimp only
  rw [end_turn_kabo (Game.mk d (pile.dropLast ++ [t]) ps cp (some k) none) k rfl rfl hcp]
  dsimp only
  rw [hrestore]
  simp only [List.nil_append]

/-- Running the turn loop from `s` seats past the Kabo caller for `s + m ≤ n`
turns: the cursor moves `m` more seats and the events are `turnEvents`. -/
lemma kaboLoop_spec (n k : Nat) (t : Card) (hk : k < n) :
    ∀ (m s : Nat) (g : Game), g.players.length = n → g.kabo = some k →
      g.hand_card = none → g.discard_pile.getLast? = some t →
      g.current_player = (k + s) % n → 1 ≤ s → s + m ≤ n →
      g.kaboLoop m = some (turnEvents t k n s m,
        { g with current_player := (k + s + m) % n }) := by
  intro m
  induction m with
  | zero =>
    intro s g hlen hkb hh ht hcp hs hsm
    unfold Game.kaboLoop turnEvents
    rw [Nat.add_zero, ← hcp]
  | succ m ih =>
    intro s g hlen hkb hh ht hcp hs hsm
    have hn2 : 2 ≤ n := by omega
    have hcplt : g.current_player < g.players.length := by
      rw [hcp, hlen]
      exact Nat.mod_lt _ (by omega)
    have hdo := doTurn_spec g k t hh hkb ht hcplt
    rw [hcp, hlen, mod_add_one_mod _ _ hn2] at hdo
    unfold Game.kaboLoop
    rw [hdo]
    dsimp only
    have hih := ih (s + 1)
      { g with current_player := (k + s + 1) % n }
      hlen hkb hh ht (by dsimp only; rw [Nat.add_assoc]) (by omega) (by omega)
    rw [hih]
    dsimp only
    conv_rhs => rw [turnEvents]
    have hidx : k + s + 1 + m = k + s + (m + 1) := by omega
    by_cases hcond : s + 1 = n
    · have he1 : (k + s + 1) % n = k := by
        rw [show k + s + 1 = k + n from by omega, Nat.add_mod_right,
          Nat.mod_eq_of_lt hk]
      rw [he1, if_pos rfl, if_pos hcond]
      rw [show k + (s + 1) + m = k + s + (m + 1) from by omega]
    · have he2 : ¬ (k = (k + s + 1) % n) := by
        intro heq
        apply hcond
        apply (add_mod_eq_self_iff k (s + 1) n hk (by omega) (by omega)).mp
        rw [← Nat.add_assoc]
        exact heq.symm
      rw [if_neg he2, if_neg hcond]
      rw [show k + (s + 1) + m = k + s + (m + 1) from by omega]

/-- The end-of-turn events of a full loop back to the caller: `EndTurn`
for every intermediate seat, then a single `GameOver`. -/
lemma turnEvents_filter (t : Card) (k n : Nat) :
    ∀ m s, 1 ≤ s → s + m + 1 = n →
      (turnEvents t k n s (m + 1)).filter isEndEvent =
        ((List.range m).map fun j => GameEvent.EndTurn ((k + s + j + 1) % n))
          ++ [GameEvent.GameOver] := by
  intro m
  induction m with
  | zero =>
    intro s hs hsum
    have hs1 : s + 1 = n := by omega
    simp [turnEvents, hs1, isEndEvent]
  | succ m ih =>
    intro s hs hsum
    have hne : s + 1 ≠ n := by omega
    have hih := ih (s + 1) (by omega) (by omega)
    conv_lhs => rw [turnEvents]
    rw [List.filter_append, hih]
    have hhead : List.filter isEndEvent
        [GameEvent.Discards [t],
         if s + 1 = n then GameEvent.GameOver
         else GameEvent.EndTurn ((k + s + 1) % n)] =
        [GameEvent.EndTurn ((k + s + 1) % n)] := by
      rw [if_neg hne]
      simp [isEndEvent]
    rw [hhead]
    rw [List.range_succ_eq_map, List.map_cons, List.map_map]
    have htail : (List.range m).map
        ((fun j => GameEvent.EndTurn ((k + s + j + 1) % n)) ∘ Nat.succ) =
        (List.range m).map fun j => GameEvent.EndTurn ((k + (s + 1) + j + 1) % n) := by
      apply List.map_congr_left
      intro a ha
      simp only [Function.comp_apply]
      congr 2
      omega
    rw [htail]
    simp

/-- C5: with no held card, `announce_kabo` fails with `AlreadyKabo{k}`
(state unchanged) when a Kabo by `k` is pending; otherwise it records the
current player as caller and returns `[Kabo, EndTurn]`, and resolving
every subsequent player's turn produces an `EndTurn` per intermediate
player and exactly one `GameOver`, exactly when the cursor returns to the
caller.  (The `≤ 255` bound reflects the `u8` cursor of the source.) -/
theorem C5_kabo_termination (g : Game) (hHand : g.hand_card = none) :
    (∀ k, g.kabo = some k → g.announce_kabo = some (.error (.AlreadyKabo k), g)) ∧
    (∀ t, g.kabo = none → g.discard_pile.getLast? = some t →
      2 ≤ g.players.length → g.players.length ≤ 255 →
      g.current_player < g.players.length →
      ∃ g', g.announce_kabo = some (.ok [.Kabo g.current_player,
          .EndTurn ((g.current_player + 1) % g.players.length)], g') ∧
        g'.kabo = some g.current_player ∧
        ∃ evs gf, g'.kaboLoop (g.players.length - 1) = some (evs, gf) ∧
          gf.current_player = g.current_player ∧
          evs.filter isEndEvent =
            ((List.range (g.players.length - 2)).map fun j =>
              GameEvent.EndTurn ((g.current_player + j + 2) % g.players.length))
              ++ [GameEvent.GameOver] ∧
          evs.count GameEvent.GameOver = 1) := by
  constructor
  · intro k hk
    unfold Game.announce_kabo
    rw [hHand]
    dsimp only
    rw [hk]
  · intro t hk ht hn _hn255 hcp
    have hann := announce_kabo_spec g hHand hk hcp hn
    refine ⟨_, hann, rfl, ?_⟩
    have hloop := kaboLoop_spec g.players.length g.current_player t hcp
      (g.players.length - 1) 1
      { g with kabo := some g.current_player,
               current_player := (g.current_player + 1) % g.players.length }
      rfl rfl hHand ht rfl (by omega) (by omega)
    refine ⟨_, _, hloop, ?_, ?_, ?_⟩
    · dsimp only
      rw [show g.current_player + 1 + (g.players.length - 1) =
        g.current_player + g.players.length from by omega]
      rw [Nat.add_mod_right, Nat.mod_eq_of_lt hcp]
    · rw [show g.players.length - 1 = (g.players.length - 2) + 1 from by omega]
      rw [turnEvents_filter t g.current_player g.players.length
        (g.players.length - 2) 1 (by omega) (by omega)]
      congr 1
      apply List.map_congr_left
      intro a ha
      congr 2
      omega
    · have hp : isEndEvent GameEvent.GameOver = true := rfl
      rw [← List.count_filter hp]
      rw [show g.players.length - 1 = (g.players.length - 2) + 1 from by omega]
      rw [turnEvents_filter t g.current_player g.players.length
        (g.players.length - 2) 1 (by omega) (by omega)]
      rw [List.count_append]
      have hzero : ((List.range (g.players.length - 2)).map fun j =>
          GameEvent.EndTurn ((g.current_player + 1 + j + 1) % g.players.length)).count
            GameEvent.GameOver = 0 := by
        rw [List.count_eq_zero]
        intro hmem
        rw [List.mem_map] at hmem
        obtain ⟨j, -, hj⟩ := hmem
        cases hj
      rw [hzero]
      rfl

/-- Witness for C5 at concrete two-player games, one with a pending Kabo
and one without. -/
theorem C5_kabo_termination_witness :
    witnessG5some.announce_kabo = some (.error (.AlreadyKabo 0), witnessG5some) ∧
    (∃ g', witnessG5none.announce_kabo = some (.ok [.Kabo 0, .EndTurn 1], g') ∧
      g'.kabo = some 0 ∧
      ∃ evs gf, g'.kaboLoop 1 = some (evs, gf) ∧
        gf.current_player = 0 ∧
        evs.filter isEndEvent =
          ((List.range 0).map fun j => GameEvent.EndTurn ((0 + j + 2) % 2))
            ++ [GameEvent.GameOver] ∧
        evs.count GameEvent.GameOver = 1) :=
  ⟨(C5_kabo_termination witnessG5some rfl).1 0 rfl,
   (C5_kabo_termination witnessG5none rfl).2 ⟨1⟩ rfl rfl (by decide) (by decide)
     (by decide)⟩
